import Mathlib

/-
  Verification of the Data-Forge Notebook evaluation engine.

  Shallow embedding of:
  - the worker-side CodeEvaluator (packages/evaluation-engine/src/lib/code-evaluator.ts):
    output capping, display, stream overrides, cell instrumentation, the
    completion polling loop and the finish transition;
  - the JavaScript code generator (internalGenCode, same file);
  - the evaluation supervisor (shells/evaluation-engine: worker table, message
    queues, exit and message handlers, stop and status endpoints).

  Modules that the repository imports but whose sources are not present
  (async-tracker, npm.isModuleImportStatement, convert-value,
  format-error-message) are modelled abstractly, as noted at each definition.
-/

namespace DFN

/-! ## Display values and evaluation events -/

/-- Modelled from the spec: the convert-value module is absent from the
sources, so a display value is embedded directly as either a number or a
string; convertDisplayValue is treated as the identity embedding (the spec
scenario expects the display event for the call display(x) with x = 1 to
carry the value 1). -/
inductive DisplayValue where
  | int (n : Int)
  | str (s : String)
  deriving DecidableEq, Repr

/-- Events delivered to the evaluator callbacks (onCellEvalStarted,
onCellEvalEnded, onDisplay, onError, onOutputCapped, onEvaluationCompleted),
recorded in delivery order. -/
inductive EvEvent where
  | cellEvalStarted (cellId : String)
  | cellEvalEnded (cellId : String)
  | displayEv (cellId : String) (value : DisplayValue)
  | errorEv (cellId : String) (message : String)
  | outputCapped
  | evaluationCompleted
  deriving DecidableEq, Repr

/-! ## Output capping (CodeEvaluator.isOutputCapped, display, stream overrides) -/

/-- Maximum number of outputs before outputs are capped
(code-evaluator.ts line 26). -/
def MAX_OUTPUTS : Nat := 1000

/-- The slice of CodeEvaluator state touched by output production:
numOutputs, outputsCapped, the delivered events, and counters for how many
writes were forwarded to the saved original stdout and stderr write
functions (oldStdoutWrite and oldStderrWrite). -/
structure OutputState where
  numOutputs : Nat
  outputsCapped : Bool
  events : List EvEvent
  oldStdoutCalls : Nat
  oldStderrCalls : Nat
  deriving DecidableEq, Repr

def initialOutputState : OutputState :=
  { numOutputs := 0, outputsCapped := false, events := [],
    oldStdoutCalls := 0, oldStderrCalls := 0 }

/-- CodeEvaluator.isOutputCapped (lines 270-288): returns true if output is
now capped.  If already capped, returns true without change.  If numOutputs
has reached MAX_OUTPUTS, raises the onOutputCapped event once, sets the
capped flag, and returns true.  Otherwise increments numOutputs and returns
false. -/
def isOutputCapped (s : OutputState) : OutputState × Bool :=
  if s.outputsCapped then
    (s, true)
  else if s.numOutputs ≥ MAX_OUTPUTS then
    ({ s with events := s.events ++ [EvEvent.outputCapped], outputsCapped := true }, true)
  else
    ({ s with numOutputs := s.numOutputs + 1 }, false)

/-- CodeEvaluator.display (lines 306-316): if output is not capped, deliver a
display event for the current cell with the converted value. -/
def display (cellId : String) (v : DisplayValue) (s : OutputState) : OutputState :=
  let r := isOutputCapped s
  if r.2 then r.1
  else { r.1 with events := r.1.events ++ [EvEvent.displayEv cellId v] }

/-- CodeEvaluator.stdoutWriteOverride (lines 349-366): if output is not
capped, deliver a display event for the current cell and forward the write to
the saved original stdout write function; otherwise return true without
forwarding. -/
def stdoutWriteOverride (cellId : String) (text : String) (s : OutputState) :
    OutputState × Bool :=
  let r := isOutputCapped s
  if r.2 then (r.1, true)
  else ({ r.1 with
            events := r.1.events ++ [EvEvent.displayEv cellId (DisplayValue.str text)],
            oldStdoutCalls := r.1.oldStdoutCalls + 1 },
        true)

/-- CodeEvaluator.stderrWriteOverride (lines 371-385): if output is not
capped, deliver an error event for the current cell and forward the write to
the saved original stderr write function; otherwise return true without
forwarding. -/
def stderrWriteOverride (cellId : String) (text : String) (s : OutputState) :
    OutputState × Bool :=
  let r := isOutputCapped s
  if r.2 then (r.1, true)
  else ({ r.1 with
            events := r.1.events ++ [EvEvent.errorEv cellId text],
            oldStderrCalls := r.1.oldStderrCalls + 1 },
        true)

/-- Folding a sequence of display calls (one value per call) through the
evaluator, as a cell making repeated calls to the injected display function
would. -/
def displayCalls (cellId : String) (values : List DisplayValue) (s : OutputState) :
    OutputState :=
  values.foldl (fun acc v => display cellId v acc) s

def isDisplayEv : EvEvent → Bool
  | EvEvent.displayEv _ _ => true
  | _ => false

def isErrorEv : EvEvent → Bool
  | EvEvent.errorEv _ _ => true
  | _ => false

/-! ### Lemmas about the output cap -/

theorem display_capped (cellId : String) (v : DisplayValue) (s : OutputState)
    (h : s.outputsCapped = true) : display cellId v s = s := by
  simp [display, isOutputCapped, h]

theorem displayCalls_capped (cellId : String) (vs : List DisplayValue)
    (s : OutputState) (h : s.outputsCapped = true) : displayCalls cellId vs s = s := by
  induction vs with
  | nil => rfl
  | cons v vs ih =>
      simp only [displayCalls, List.foldl_cons]
      rw [display_capped cellId v s h]
      exact ih

/-- Characterization of a run of display calls starting from an uncapped
state: the first MAX_OUTPUTS - numOutputs calls each deliver a display event,
then one outputCapped event is delivered, after which nothing more is
delivered. -/
theorem displayCalls_events (cellId : String) (vs : List DisplayValue)
    (c : Nat) (evs : List EvEvent) (so se : Nat) (h : c ≤ MAX_OUTPUTS) :
    (displayCalls cellId vs
      { numOutputs := c, outputsCapped := false, events := evs,
        oldStdoutCalls := so, oldStderrCalls := se }).events =
    evs ++ (vs.take (MAX_OUTPUTS - c)).map (fun v => EvEvent.displayEv cellId v)
        ++ (if MAX_OUTPUTS - c < vs.length then [EvEvent.outputCapped] else []) := by
  induction vs generalizing c evs with
  | nil => simp [displayCalls]
  | cons v vs ih =>
      by_cases hc : c < MAX_OUTPUTS
      · have h1 : ¬ (c ≥ MAX_OUTPUTS) := by omega
        have hstep : display cellId v
            { numOutputs := c, outputsCapped := false, events := evs,
              oldStdoutCalls := so, oldStderrCalls := se } =
            { numOutputs := c + 1, outputsCapped := false,
              events := evs ++ [EvEvent.displayEv cellId v],
              oldStdoutCalls := so, oldStderrCalls := se } := by
          simp [display, isOutputCapped, h1]
        have htake : MAX_OUTPUTS - c = (MAX_OUTPUTS - (c + 1)) + 1 := by omega
        have hlen : (MAX_OUTPUTS - c < vs.length + 1) =
            (MAX_OUTPUTS - (c + 1) < vs.length) := by
          simp only [eq_iff_iff]
          omega
        simp only [displayCalls, List.foldl_cons] at *
        rw [hstep, ih (c + 1) (evs ++ [EvEvent.displayEv cellId v]) (by omega)]
        rw [htake]
        simp [List.take_succ_cons, hlen]
      · have hc1 : c = MAX_OUTPUTS := by omega
        subst hc1
        have hstep : display cellId v
            { numOutputs := MAX_OUTPUTS, outputsCapped := false, events := evs,
              oldStdoutCalls := so, oldStderrCalls := se } =
            { numOutputs := MAX_OUTPUTS, outputsCapped := true,
              events := evs ++ [EvEvent.outputCapped],
              oldStdoutCalls := so, oldStderrCalls := se } := by
          simp [display, isOutputCapped]
        simp only [displayCalls, List.foldl_cons]
        rw [hstep]
        have := displayCalls_capped cellId vs
            { numOutputs := MAX_OUTPUTS, outputsCapped := true,
              events := evs ++ [EvEvent.outputCapped],
              oldStdoutCalls := so, oldStderrCalls := se } rfl
        simp only [displayCalls] at this
        rw [this]
        simp

/-- Claim C2: for every evaluation in which exactly 1001 display calls are
made from a single cell and no other output is produced, exactly 1000 display
events are delivered to the display handler, exactly one output-capped event
is raised, and no further display or error events are delivered after the cap
is reached (the full trace is the first 1000 display events followed by the
single outputCapped event, which is last). -/
theorem outputCap_1001_displays (cellId : String) (vs : List DisplayValue)
    (h : vs.length = 1001) :
    (displayCalls cellId vs initialOutputState).events =
      (vs.take 1000).map (fun v => EvEvent.displayEv cellId v) ++ [EvEvent.outputCapped]
    ∧ ((displayCalls cellId vs initialOutputState).events.countP isDisplayEv = 1000
    ∧ (displayCalls cellId vs initialOutputState).events.countP
        (fun e => e == EvEvent.outputCapped) = 1
    ∧ (displayCalls cellId vs initialOutputState).events.getLast? =
        some EvEvent.outputCapped) := by
  have htr := displayCalls_events cellId vs 0 [] 0 0 (by omega)
  have hMAX : MAX_OUTPUTS = 1000 := rfl
  rw [hMAX] at htr
  simp only [Nat.sub_zero, h] at htr
  have hcond : (1000 : Nat) < 1001 := by omega
  simp only [if_pos hcond] at htr
  have htrace : (displayCalls cellId vs initialOutputState).events =
      (vs.take 1000).map (fun v => EvEvent.displayEv cellId v) ++ [EvEvent.outputCapped] := by
    simpa [initialOutputState] using htr
  refine ⟨htrace, ?_, ?_, ?_⟩
  · rw [htrace]
    rw [List.countP_append]
    have hall : ((vs.take 1000).map (fun v => EvEvent.displayEv cellId v)).countP
        isDisplayEv = ((vs.take 1000).map (fun v => EvEvent.displayEv cellId v)).length := by
      rw [List.countP_eq_length]
      intro a ha
      rcases List.mem_map.mp ha with ⟨v, _, rfl⟩
      rfl
    rw [hall]
    simp [List.length_take, h, isDisplayEv]
  · rw [htrace]
    rw [List.countP_append]
    have hnone : ((vs.take 1000).map (fun v => EvEvent.displayEv cellId v)).countP
        (fun e => e == EvEvent.outputCapped) = 0 := by
      rw [List.countP_eq_zero]
      intro a ha
      rcases List.mem_map.mp ha with ⟨v, _, rfl⟩
      simp
    rw [hnone]
    simp
  · rw [htrace]
    simp

/-- Witness for the output cap claim at a concrete input: 1001 identical
display calls. -/
theorem outputCap_1001_displays_witness :
    (List.replicate 1001 (DisplayValue.int 7)).length = 1001
    ∧ (displayCalls "cell-a" (List.replicate 1001 (DisplayValue.int 7))
        initialOutputState).events.countP isDisplayEv = 1000 := by
  refine ⟨List.length_replicate 1001 (DisplayValue.int 7), ?_⟩
  exact (outputCap_1001_displays "cell-a" (List.replicate 1001 (DisplayValue.int 7))
    (List.length_replicate 1001 (DisplayValue.int 7))).2.1

/-! ### Claim C3: streams after the cap -/

/-- Concrete state in which the output cap has been reached. -/
def cappedState : OutputState :=
  { numOutputs := 1000, outputsCapped := true, events := [EvEvent.outputCapped],
    oldStdoutCalls := 0, oldStderrCalls := 0 }

/-- Claim C3 counterexample: the claim states that after the cap every write
to stdout or stderr is still forwarded to the original stream write function.
In the code, once outputsCapped is set, stdoutWriteOverride and
stderrWriteOverride return true without calling oldStdoutWrite or
oldStderrWrite, so the forward-call counters do not increase. -/
theorem streamsAfterCap_counterexample :
    ¬ ((stdoutWriteOverride "cell-a" "hello" cappedState).1.oldStdoutCalls =
        cappedState.oldStdoutCalls + 1)
    ∧ ¬ ((stderrWriteOverride "cell-a" "oops" cappedState).1.oldStderrCalls =
        cappedState.oldStderrCalls + 1) := by
  constructor
  · simp [stdoutWriteOverride, isOutputCapped, cappedState]
  · simp [stderrWriteOverride, isOutputCapped, cappedState]

/-- Claim C3 (amended): after the output cap has been reached, a write to
standard output or standard error is fully suppressed: no structured event is
produced for it AND the write is not forwarded to the original stream write
function; the override simply returns true, leaving the state unchanged. -/
theorem streamsAfterCap (cellId text : String) (s : OutputState)
    (h : s.outputsCapped = true) :
    stdoutWriteOverride cellId text s = (s, true)
    ∧ stderrWriteOverride cellId text s = (s, true) := by
  constructor
  · simp [stdoutWriteOverride, isOutputCapped, h]
  · simp [stderrWriteOverride, isOutputCapped, h]

/-- Witness for the amended stream suppression claim at a concrete capped
state. -/
theorem streamsAfterCap_witness :
    cappedState.outputsCapped = true
    ∧ stdoutWriteOverride "cell-a" "hello" cappedState = (cappedState, true) := by
  exact ⟨rfl, (streamsAfterCap "cell-a" "hello" cappedState rfl).1⟩

/-! ## Generated-program runtime (claim C1)

The code generator (internalGenCode, eval mode) emits, for cells c0 .. cn-1,
the nested structure

  __cell(0, id0, async () => \x7b body0; __capture_locals(0, id0, () => (\x7b\x7d));
  __cell(1, id1, async () => \x7b body1; __capture_locals(1, id1, () => (\x7b\x7d));
  ... __end(); \x7d); ... \x7d);

so each later cell body is lexically nested inside all earlier cell bodies.
The runtime below executes that structure with the semantics of the
CodeEvaluator instrumentation hooks: __cell (lines 599-637) raises
onCellEvalStarted and runs the body inside a fresh tracked async scope,
__capture_locals with the generated getLocals = () => (\x7b\x7d) captures
nothing, __end (lines 559-564) sets notebookCompleted, and display routes
through the output-capping machinery with the cell resolved from the current
async context.  Cell bodies are abstracted as statements over integer
bindings, which covers the notebook of claim C1. -/

/-- Statement fragment sufficient for the generated structure of a notebook:
variable bindings, display of a variable, the __cell wrapper, the
__capture_locals call and the __end call. -/
inductive GenStmt where
  | skip
  | seq (a b : GenStmt)
  | letVar (name : String) (value : Int)
  | displayVar (name : String)
  | cellWrap (index : Nat) (id : String) (body : GenStmt)
  | captureLocalsCall (index : Nat) (id : String)
  | endOfCells
  deriving Repr

/-- Runtime state of the worker while executing the generated unit.
curCellIndex models the async-tracker resolution of executionAsyncId to the
innermost tracked cell context (none outside any cell context).

Modelled from the spec: the async-tracker module is absent from the sources;
per spec section 4.2 a continuation resolves to the nearest tracked ancestor
context, which for the synchronous execution modelled here is the innermost
enclosing __cell scope. -/
structure RunState where
  cellIds : List String
  curCellIndex : Option Nat
  env : List (String × Int)
  output : OutputState
  notebookCompleted : Bool
  notebookFinished : Bool
  deriving Repr

/-- CodeEvaluator.getCurCellId (lines 300-304): resolve the current async
context to a cell index, defaulting to 0 (the code reads
getParentCellIndex(asyncId) || 0), then look up the cell id. -/
def getCurCellId (s : RunState) : String :=
  s.cellIds.getD (s.curCellIndex.getD 0) ""

/-- Execute a generated statement, mirroring the instrumentation hooks of
CodeEvaluator. -/
def exec : GenStmt → RunState → RunState
  | GenStmt.skip, s => s
  | GenStmt.seq a b, s => exec b (exec a s)
  | GenStmt.letVar n v, s => { s with env := (n, v) :: s.env }
  | GenStmt.displayVar n, s =>
      match s.env.lookup n with
      | some v => { s with output := display (getCurCellId s) (DisplayValue.int v) s.output }
      | none => s
  | GenStmt.cellWrap i id body, s =>
      if s.notebookFinished then s
      else
        let s1 := { s with output :=
          { s.output with events := s.output.events ++ [EvEvent.cellEvalStarted id] } }
        let s2 := exec body { s1 with curCellIndex := some i }
        { s2 with curCellIndex := s1.curCellIndex }
  | GenStmt.captureLocalsCall _ _, s => s
  | GenStmt.endOfCells, s => { s with notebookCompleted := true }

/-- Cell scope: global, or local (a local cell is wrapped in an immediately
invoked scope and receives no __capture_locals call). -/
inductive CellScope where
  | globalScope
  | localScope
  deriving DecidableEq, Repr

/-- A notebook cell as seen by the structural generator: id, scope and body
statements. -/
structure NbCell where
  id : String
  scope : CellScope
  body : GenStmt

/-- Structural form of internalGenCode in eval mode (lines 928-990): each
cell contributes a __cell wrapper holding its body, a __capture_locals call
for non-local cells, and the following cells; a single __end call closes the
innermost cell. -/
def genCellsProgram : Nat → List NbCell → GenStmt
  | _, [] => GenStmt.endOfCells
  | i, c :: rest =>
      GenStmt.cellWrap i c.id
        (GenStmt.seq c.body
          (GenStmt.seq
            (if c.scope = CellScope.localScope then GenStmt.skip
             else GenStmt.captureLocalsCall i c.id)
            (genCellsProgram (i + 1) rest)))

def genProgram (cells : List NbCell) : GenStmt := genCellsProgram 0 cells

def mkRunState (cellIds : List String) : RunState :=
  { cellIds := cellIds, curCellIndex := none, env := [],
    output := initialOutputState, notebookCompleted := false,
    notebookFinished := false }

/-- The two-cell notebook of claim C1: a first global cell binding x to 1 and
a second global cell calling display(x). -/
def c1Cells : List NbCell :=
  [ { id := "cell-1", scope := CellScope.globalScope, body := GenStmt.letVar "x" 1 },
    { id := "cell-2", scope := CellScope.globalScope, body := GenStmt.displayVar "x" } ]

/-- Claim C1: evaluating a notebook with two global-scope code cells, the
first binding x to 1 and the second calling display(x), delivers a display
event for the second cell with value 1, after both cells have reported
cell-eval-started in their original order; the binding made by the first cell
is read by the second cell within the same evaluation. -/
theorem twoCellCapturedLocal :
    (exec (genProgram c1Cells) (mkRunState ["cell-1", "cell-2"])).output.events =
      [EvEvent.cellEvalStarted "cell-1", EvEvent.cellEvalStarted "cell-2",
       EvEvent.displayEv "cell-2" (DisplayValue.int 1)]
    ∧ (exec (genProgram c1Cells) (mkRunState ["cell-1", "cell-2"])).notebookCompleted
        = true := by
  constructor <;> rfl

/-! ## Evaluator lifecycle (claims C6, C8, C9)

State machine for the CodeEvaluator: the constructor (lines 230-265), the
completion polling loop awaitNotebookCompleted (lines 492-554), the finish
transition onFinished (lines 457-485) and the asynchronous error reporter
reportErrorSync (lines 825-834).  reportErrorSync runs reportError inside an
async function whose first await suspends it, so the onError callback fires
on a later microtask turn, after the synchronous caller (including any
directly following onFinished call) has returned; this is modelled by a
pendingErrors queue delivered by a separate flush step. -/

/-- Cell type (model package): only code cells participate in evaluation. -/
inductive CellType where
  | code
  | markdown
  deriving DecidableEq, Repr

/-- A notebook cell as passed to the CodeEvaluator constructor. -/
structure SrcCell where
  id : String
  cellType : CellType
  scope : CellScope
  text : String
  deriving DecidableEq, Repr

/-- The CodeEvaluator state relevant to lifecycle claims: cell ids, the
per-cell completion vector, the notebookCompleted and notebookFinished flags,
the events delivered to handlers in order, and error reports scheduled by
reportErrorSync but not yet delivered. -/
structure EvaluatorState where
  cellIds : List String
  cellsCompleted : List Bool
  notebookCompleted : Bool
  notebookFinished : Bool
  emitted : List EvEvent
  pendingErrors : List EvEvent

/-- State established by the CodeEvaluator constructor (lines 240-255): every
entry of cellsCompleted starts false, nothing emitted yet. -/
def initEvaluator (cellIds : List String) : EvaluatorState :=
  { cellIds := cellIds,
    cellsCompleted := List.replicate cellIds.length false,
    notebookCompleted := false, notebookFinished := false,
    emitted := [], pendingErrors := [] }

/-- CodeEvaluator constructor (lines 230-265): filters to code cells and
throws "Need some code cells!" when none remain, before any code generation
or execution (genCode is only reached from evalSetup on a constructed
evaluator). -/
def mkCodeEvaluator (allCells : List SrcCell) : Except String EvaluatorState :=
  let cells := allCells.filter (fun c => c.cellType == CellType.code)
  if cells.length = 0 then Except.error "Need some code cells!"
  else Except.ok (initEvaluator (cells.map (fun c => c.id)))

/-- CodeEvaluator.reportErrorSync (lines 825-834): schedules the translated
error for delivery on a later microtask turn (the async reportError suspends
at its first await before reaching the onError callback). -/
def reportErrorSync (cellId message : String) (s : EvaluatorState) : EvaluatorState :=
  { s with pendingErrors := s.pendingErrors ++ [EvEvent.errorEv cellId message] }

/-- A later microtask turn delivering the error reports scheduled by
reportErrorSync, in order. -/
def flushPendingErrors (s : EvaluatorState) : EvaluatorState :=
  { s with emitted := s.emitted ++ s.pendingErrors, pendingErrors := [] }

/-- CodeEvaluator.onFinished (lines 457-485): idempotent via the
notebookFinished guard; on the first call raises onEvaluationCompleted
(the notebook-eval-completed event).  Stream restoration, source map
destruction, tracker deinit and listener removal touch no field modelled
here. -/
def onFinished (s : EvaluatorState) : EvaluatorState :=
  if s.notebookFinished then s
  else { s with notebookFinished := true,
                emitted := s.emitted ++ [EvEvent.evaluationCompleted] }

/-- CodeEvaluator.onUncaughtException (lines 441-444): report the error
asynchronously, then finish synchronously. -/
def onUncaughtException (cellId message : String) (s : EvaluatorState) : EvaluatorState :=
  onFinished (reportErrorSync cellId message s)

/-- CodeEvaluator.onUnhandledRejection (lines 449-452): report the error
asynchronously, then finish synchronously. -/
def onUnhandledRejection (cellId message : String) (s : EvaluatorState) : EvaluatorState :=
  onFinished (reportErrorSync cellId message s)

/-- Loop body of awaitNotebookCompleted (lines 521-545) over the cells from
index j on: returns the updated completion vector, the cellEvalEnded events
emitted for newly completed cells (in index order), and the
allCellsCompleted flag.  The final captureLocals call for a newly completed
cell runs the generated getLocals, which returns an empty object and so
captures nothing.  The tracker argument models
asyncTracker.hasCellCompleted; the async-tracker module is absent from the
sources and is treated as an oracle per spec section 4.2. -/
def pollCellsAux (tracker : Nat → Bool) (ids : List String) :
    Nat → List Bool → List Bool × List EvEvent × Bool
  | _, [] => ([], [], true)
  | j, b :: rest =>
      let r := pollCellsAux tracker ids (j + 1) rest
      if b then
        (true :: r.1, r.2.1, r.2.2)
      else if tracker j then
        (true :: r.1, EvEvent.cellEvalEnded (ids.getD j "") :: r.2.1, r.2.2)
      else
        (false :: r.1, r.2.1, false)

/-- One tick of awaitNotebookCompleted (lines 492-554): return immediately if
already finished; on timeout report "Notebook exceeded timeout" (attributed
via getCurCellId, which resolves to the first cell from the timer context)
and finish; otherwise update the completion vector, emit cellEvalEnded for
newly completed cells, and finish when the notebook has completed and every
cell has drained. -/
def pollTick (tracker : Nat → Bool) (timedOut : Bool) (s : EvaluatorState) :
    EvaluatorState :=
  if s.notebookFinished then s
  else if timedOut then
    onFinished (reportErrorSync (s.cellIds.getD 0 "") "Notebook exceeded timeout" s)
  else
    let r := pollCellsAux tracker s.cellIds 0 s.cellsCompleted
    let s1 := { s with cellsCompleted := r.1, emitted := s.emitted ++ r.2.1 }
    if s.notebookCompleted && r.2.2 then onFinished s1 else s1

/-- Operations of an evaluation that touch the lifecycle state. -/
inductive EvalOp where
  | uncaught (cellId message : String)
  | rejection (cellId message : String)
  | finishNotebook
  | deliverPendingErrors
  | tick (tracker : Nat → Bool) (timedOut : Bool)

def stepOp : EvalOp → EvaluatorState → EvaluatorState
  | EvalOp.uncaught cellId message, s => onUncaughtException cellId message s
  | EvalOp.rejection cellId message, s => onUnhandledRejection cellId message s
  | EvalOp.finishNotebook, s => onFinished s
  | EvalOp.deliverPendingErrors, s => flushPendingErrors s
  | EvalOp.tick tracker timedOut, s => pollTick tracker timedOut s

def runEvalOps (ops : List EvalOp) (s : EvaluatorState) : EvaluatorState :=
  ops.foldl (fun st op => stepOp op st) s

/-! ### Lifecycle lemmas -/

def completedCount (l : List EvEvent) : Nat :=
  l.countP (fun e => e == EvEvent.evaluationCompleted)

theorem completedCount_append (a b : List EvEvent) :
    completedCount (a ++ b) = completedCount a + completedCount b :=
  List.countP_append _ a b

theorem pollCellsAux_events_ended (tracker : Nat → Bool) (ids : List String) :
    ∀ (j : Nat) (l : List Bool) (e : EvEvent),
      e ∈ (pollCellsAux tracker ids j l).2.1 → ∃ cid, e = EvEvent.cellEvalEnded cid := by
  intro j l
  induction l generalizing j with
  | nil => intro e he; simp [pollCellsAux] at he
  | cons b rest ih =>
      intro e he
      simp only [pollCellsAux] at he
      by_cases hb : b
      · simp [hb] at he
        exact ih (j + 1) e he
      · by_cases ht : tracker j
        · simp [hb, ht] at he
          rcases he with he | he
          · exact ⟨_, he⟩
          · exact ih (j + 1) e he
        · simp [hb, ht] at he
          exact ih (j + 1) e he

theorem pollCellsAux_completedCount (tracker : Nat → Bool) (ids : List String)
    (j : Nat) (l : List Bool) :
    completedCount (pollCellsAux tracker ids j l).2.1 = 0 := by
  rw [completedCount, List.countP_eq_zero]
  intro e he
  rcases pollCellsAux_events_ended tracker ids j l e he with ⟨cid, rfl⟩
  simp

theorem pollCellsAux_getD (tracker : Nat → Bool) (ids : List String) :
    ∀ (l : List Bool) (j k : Nat),
      (pollCellsAux tracker ids j l).1.getD k false =
        (l.getD k false || (decide (k < l.length) && tracker (j + k))) := by
  intro l
  induction l with
  | nil => intro j k; simp [pollCellsAux]
  | cons b rest ih =>
      intro j k
      match k with
      | 0 =>
          by_cases hb : b
          · simp [pollCellsAux, hb]
          · by_cases ht : tracker j
            · simp [pollCellsAux, hb, ht]
            · simp [pollCellsAux, hb, ht]
      | k + 1 =>
          have harith : j + (k + 1) = (j + 1) + k := by omega
          have hlen : (decide (k + 1 < rest.length + 1)) = (decide (k < rest.length)) := by
            simp only [decide_eq_decide]
            omega
          by_cases hb : b
          · simp only [pollCellsAux, hb, if_pos, List.getD_cons_succ, List.length_cons]
            rw [ih (j + 1) k, harith, hlen]
          · by_cases ht : tracker j
            · simp only [pollCellsAux, hb, ht, if_neg, if_pos, Bool.false_eq_true,
                not_false_iff, List.getD_cons_succ, List.length_cons]
              rw [ih (j + 1) k, harith, hlen]
            · simp only [pollCellsAux, hb, ht, Bool.false_eq_true, not_false_iff,
                if_neg, List.getD_cons_succ, List.length_cons]
              rw [ih (j + 1) k, harith, hlen]

theorem onFinished_cellsCompleted (s : EvaluatorState) :
    (onFinished s).cellsCompleted = s.cellsCompleted := by
  by_cases h : s.notebookFinished <;> simp [onFinished, h]

theorem reportErrorSync_cellsCompleted (cellId message : String) (s : EvaluatorState) :
    (reportErrorSync cellId message s).cellsCompleted = s.cellsCompleted := rfl

theorem pollTick_cellsCompleted_mono (tracker : Nat → Bool) (timedOut : Bool)
    (s : EvaluatorState) (i : Nat) (h : s.cellsCompleted.getD i false = true) :
    (pollTick tracker timedOut s).cellsCompleted.getD i false = true := by
  by_cases hf : s.notebookFinished
  · simpa [pollTick, hf] using h
  · by_cases ht : timedOut
    · simp only [pollTick, hf, ht, if_neg, if_pos, Bool.false_eq_true, not_false_iff]
      rw [onFinished_cellsCompleted, reportErrorSync_cellsCompleted]
      exact h
    · simp only [pollTick, hf, ht, Bool.false_eq_true, not_false_iff, if_neg]
      by_cases hc : s.notebookCompleted &&
          (pollCellsAux tracker s.cellIds 0 s.cellsCompleted).2.2
      · simp only [hc, if_pos]
        rw [onFinished_cellsCompleted]
        simp only [pollCellsAux_getD tracker s.cellIds s.cellsCompleted 0 i, h,
          Bool.true_or]
      · simp only [hc, if_neg, Bool.false_eq_true, not_false_iff]
        simp only [pollCellsAux_getD tracker s.cellIds s.cellsCompleted 0 i, h,
          Bool.true_or]

theorem stepOp_cellsCompleted_mono (op : EvalOp) (s : EvaluatorState) (i : Nat)
    (h : s.cellsCompleted.getD i false = true) :
    (stepOp op s).cellsCompleted.getD i false = true := by
  cases op with
  | uncaught cellId message =>
      simp only [stepOp, onUncaughtException]
      rw [onFinished_cellsCompleted, reportErrorSync_cellsCompleted]
      exact h
  | rejection cellId message =>
      simp only [stepOp, onUnhandledRejection]
      rw [onFinished_cellsCompleted, reportErrorSync_cellsCompleted]
      exact h
  | finishNotebook =>
      simp only [stepOp]
      rw [onFinished_cellsCompleted]
      exact h
  | deliverPendingErrors => exact h
  | tick tracker timedOut => exact pollTick_cellsCompleted_mono tracker timedOut s i h

/-- Claim C8: the per-cell completion vector is monotonic.  Part 1: the
constructor initializes every entry to false.  Part 2: once an entry is true,
no sequence of evaluation operations (polling ticks, error handlers, finish,
error delivery) ever resets it to false.  Part 3: a polling tick sets an
entry to true only if it was already true or the async tracker reports that
cell completed. -/
theorem cellsCompletedMonotonic :
    (∀ (allCells : List SrcCell) (st : EvaluatorState),
      mkCodeEvaluator allCells = Except.ok st →
        ∀ i, st.cellsCompleted.getD i false = false)
    ∧ (∀ (s : EvaluatorState) (ops : List EvalOp) (i : Nat),
        s.cellsCompleted.getD i false = true →
          (runEvalOps ops s).cellsCompleted.getD i false = true)
    ∧ (∀ (tracker : Nat → Bool) (timedOut : Bool) (s : EvaluatorState) (i : Nat),
        s.notebookFinished = false → timedOut = false →
        (pollTick tracker timedOut s).cellsCompleted.getD i false = true →
          s.cellsCompleted.getD i false = true ∨ tracker i = true) := by
  refine ⟨?_, ?_, ?_⟩
  · intro allCells st hok i
    simp only [mkCodeEvaluator] at hok
    by_cases hlen : (allCells.filter (fun c => c.cellType == CellType.code)).length = 0
    · simp [hlen] at hok
    · simp only [hlen, if_neg] at hok
      cases hok
      simp only [initEvaluator]
      by_cases hi : i < (allCells.filter
          (fun c => c.cellType == CellType.code)).length
      · rw [List.getD_eq_getElem?_getD]
        simp [hi]
      · rw [List.getD_eq_getElem?_getD, List.getElem?_eq_none]
        · rfl
        · simp only [List.length_replicate, List.length_map]
          omega
  · intro s ops i h
    induction ops generalizing s with
    | nil => exact h
    | cons op ops ih =>
        simp only [runEvalOps, List.foldl_cons]
        exact ih (stepOp op s) (stepOp_cellsCompleted_mono op s i h)
  · intro tracker timedOut s i hf ht h
    subst ht
    simp only [pollTick, hf, Bool.false_eq_true, not_false_iff, if_neg] at h
    by_cases hc : s.notebookCompleted &&
        (pollCellsAux tracker s.cellIds 0 s.cellsCompleted).2.2
    · simp only [hc, if_pos] at h
      rw [onFinished_cellsCompleted] at h
      rw [pollCellsAux_getD tracker s.cellIds s.cellsCompleted 0 i] at h
      rcases Bool.or_eq_true_iff.mp h with h1 | h1
      · exact Or.inl h1
      · have h2 := (Bool.and_eq_true_iff.mp h1).2
        rw [Nat.zero_add] at h2
        exact Or.inr h2
    · simp only [hc, if_neg, Bool.false_eq_true, not_false_iff] at h
      rw [pollCellsAux_getD tracker s.cellIds s.cellsCompleted 0 i] at h
      rcases Bool.or_eq_true_iff.mp h with h1 | h1
      · exact Or.inl h1
      · have h2 := (Bool.and_eq_true_iff.mp h1).2
        rw [Nat.zero_add] at h2
        exact Or.inr h2

/-- Witness for the completion-vector monotonicity claim at concrete inputs:
a two-cell evaluator whose first cell is already complete keeps it complete
across a tick that completes nothing, and a tick that completes cell 0 did so
with the tracker reporting cell 0 complete. -/
theorem cellsCompletedMonotonic_witness :
    (mkCodeEvaluator [⟨"c1", CellType.code, CellScope.globalScope, "let x = 1;"⟩]
        = Except.ok (initEvaluator ["c1"])
      ∧ (initEvaluator ["c1"]).cellsCompleted.getD 0 false = false)
    ∧ ({ initEvaluator ["c1", "c2"] with
          cellsCompleted := [true, false] } : EvaluatorState).cellsCompleted.getD 0 false
        = true
    ∧ (runEvalOps [EvalOp.tick (fun _ => false) false]
        { initEvaluator ["c1", "c2"] with
          cellsCompleted := [true, false] }).cellsCompleted.getD 0 false = true
    ∧ ((pollTick (fun _ => true) false (initEvaluator ["c1"])).cellsCompleted.getD 0 false
          = true →
        (initEvaluator ["c1"]).cellsCompleted.getD 0 false = true
          ∨ (fun (_ : Nat) => true) 0 = true) := by
  refine ⟨⟨rfl, ?_⟩, rfl, ?_, ?_⟩
  · exact cellsCompletedMonotonic.1 [⟨"c1", CellType.code, CellScope.globalScope,
      "let x = 1;"⟩] (initEvaluator ["c1"]) rfl 0
  · exact cellsCompletedMonotonic.2.1
      { initEvaluator ["c1", "c2"] with cellsCompleted := [true, false] }
      [EvalOp.tick (fun _ => false) false] 0 rfl
  · exact cellsCompletedMonotonic.2.2 (fun _ => true) false (initEvaluator ["c1"]) 0
      rfl rfl

/-! ### Claim C6: the terminal event -/

/-- Claim C6 counterexample: an uncaught exception reports its error through
reportErrorSync, whose delivery is deferred past the synchronous onFinished
call, so the error event is delivered after notebook-eval-completed; the
completed event is not last. -/
theorem completedNotLast_counterexample :
    (flushPendingErrors
        (onUncaughtException "cell-1" "boom" (initEvaluator ["cell-1"]))).emitted
      = [EvEvent.evaluationCompleted, EvEvent.errorEv "cell-1" "boom"]
    ∧ (flushPendingErrors
        (onUncaughtException "cell-1" "boom" (initEvaluator ["cell-1"]))).emitted.getLast?
      ≠ some EvEvent.evaluationCompleted := by
  constructor
  · rfl
  · decide

/-- Invariant tying the number of delivered notebook-eval-completed events to
the finished flag, with none pending. -/
def CompletedInv (s : EvaluatorState) : Prop :=
  completedCount s.emitted = (if s.notebookFinished then 1 else 0)
    ∧ completedCount s.pendingErrors = 0

theorem completedCount_errorEv (cid msg : String) :
    completedCount [EvEvent.errorEv cid msg] = 0 := by
  simp [completedCount]

theorem completedCount_completedEv :
    completedCount [EvEvent.evaluationCompleted] = 1 := by
  simp [completedCount]

theorem onFinished_inv (t : EvaluatorState) (h : CompletedInv t) :
    CompletedInv (onFinished t) := by
  rcases h with ⟨h1, h2⟩
  by_cases hf : t.notebookFinished
  · have heq : onFinished t = t := by simp [onFinished, hf]
    rw [heq]
    exact ⟨h1, h2⟩
  · have heq : onFinished t =
        { t with
          notebookFinished := true,
          emitted := t.emitted ++ [EvEvent.evaluationCompleted] } := by
      simp [onFinished, hf]
    rw [heq]
    refine ⟨?_, h2⟩
    show completedCount (t.emitted ++ [EvEvent.evaluationCompleted])
        = (if true then 1 else 0)
    rw [completedCount_append, h1, completedCount_completedEv]
    simp [hf]

theorem reportErrorSync_inv (cid msg : String) (t : EvaluatorState)
    (h : CompletedInv t) : CompletedInv (reportErrorSync cid msg t) := by
  rcases h with ⟨h1, h2⟩
  refine ⟨h1, ?_⟩
  show completedCount (t.pendingErrors ++ [EvEvent.errorEv cid msg]) = 0
  rw [completedCount_append, h2, completedCount_errorEv]

theorem flushPendingErrors_inv (t : EvaluatorState) (h : CompletedInv t) :
    CompletedInv (flushPendingErrors t) := by
  rcases h with ⟨h1, h2⟩
  constructor
  · show completedCount (t.emitted ++ t.pendingErrors)
        = (if t.notebookFinished then 1 else 0)
    rw [completedCount_append, h1, h2]
    exact Nat.add_zero _
  · show completedCount [] = 0
    rfl

theorem pollTick_inv (tracker : Nat → Bool) (timedOut : Bool) (t : EvaluatorState)
    (h : CompletedInv t) : CompletedInv (pollTick tracker timedOut t) := by
  by_cases hf : t.notebookFinished
  · have heq : pollTick tracker timedOut t = t := by simp [pollTick, hf]
    rw [heq]; exact h
  · by_cases ht : timedOut
    · have heq : pollTick tracker timedOut t =
          onFinished (reportErrorSync (t.cellIds.getD 0 "")
            "Notebook exceeded timeout" t) := by
        simp [pollTick, hf, ht]
      rw [heq]
      exact onFinished_inv _ (reportErrorSync_inv _ _ t h)
    · rcases h with ⟨h1, h2⟩
      have hmid : CompletedInv
          { t with
            cellsCompleted := (pollCellsAux tracker t.cellIds 0 t.cellsCompleted).1,
            emitted := t.emitted ++
              (pollCellsAux tracker t.cellIds 0 t.cellsCompleted).2.1 } := by
        constructor
        · show completedCount (t.emitted ++
              (pollCellsAux tracker t.cellIds 0 t.cellsCompleted).2.1)
            = (if t.notebookFinished then 1 else 0)
          rw [completedCount_append, pollCellsAux_completedCount, h1]
          exact Nat.add_zero _
        · exact h2
      by_cases hc : t.notebookCompleted &&
          (pollCellsAux tracker t.cellIds 0 t.cellsCompleted).2.2
      · have heq : pollTick tracker timedOut t = onFinished
            { t with
              cellsCompleted := (pollCellsAux tracker t.cellIds 0 t.cellsCompleted).1,
              emitted := t.emitted ++
                (pollCellsAux tracker t.cellIds 0 t.cellsCompleted).2.1 } := by
          simp [pollTick, hf, ht, hc]
        rw [heq]
        exact onFinished_inv _ hmid
      · have heq : pollTick tracker timedOut t =
            { t with
              cellsCompleted := (pollCellsAux tracker t.cellIds 0 t.cellsCompleted).1,
              emitted := t.emitted ++
                (pollCellsAux tracker t.cellIds 0 t.cellsCompleted).2.1 } := by
          simp [pollTick, hf, ht, hc]
        rw [heq]
        exact hmid

theorem stepOp_inv (op : EvalOp) (t : EvaluatorState) (h : CompletedInv t) :
    CompletedInv (stepOp op t) := by
  cases op with
  | uncaught cid msg => exact onFinished_inv _ (reportErrorSync_inv cid msg t h)
  | rejection cid msg => exact onFinished_inv _ (reportErrorSync_inv cid msg t h)
  | finishNotebook => exact onFinished_inv t h
  | deliverPendingErrors => exact flushPendingErrors_inv t h
  | tick tracker timedOut => exact pollTick_inv tracker timedOut t h

/-- Claim C6 (amended): for every evaluation, at most one
notebook-eval-completed event is ever emitted, and exactly one once the
evaluation has reached the finished state, on any path (normal drain,
uncaught exception, unhandled rejection, or timeout); however it is not
always the last event, since error events scheduled by the asynchronous
reporter just before finishing are delivered after it (see the
counterexample). -/
theorem evalCompletedOnce (cellIds : List String) (ops : List EvalOp) :
    completedCount (runEvalOps ops (initEvaluator cellIds)).emitted
      = (if (runEvalOps ops (initEvaluator cellIds)).notebookFinished then 1 else 0) := by
  suffices h : ∀ (ops : List EvalOp) (s : EvaluatorState),
      CompletedInv s → CompletedInv (runEvalOps ops s) by
    exact (h ops (initEvaluator cellIds) ⟨rfl, rfl⟩).1
  intro ops
  induction ops with
  | nil => intro s hs; exact hs
  | cons op ops ih =>
      intro s hs
      simp only [runEvalOps, List.foldl_cons]
      exact ih (stepOp op s) (stepOp_inv op s hs)

/-! ### Claim C9: empty notebook -/

/-- Claim C9: for every notebook whose cells contain no code cells,
constructing the evaluator fails with the "Need some code cells!" error, so
no code generation or execution takes place; an empty notebook is never
treated as a successful empty evaluation. -/
theorem emptyNotebookConstructionFails (allCells : List SrcCell)
    (h : ∀ c ∈ allCells, c.cellType ≠ CellType.code) :
    mkCodeEvaluator allCells = Except.error "Need some code cells!" := by
  have hfil : allCells.filter (fun c => c.cellType == CellType.code) = [] := by
    rw [List.filter_eq_nil_iff]
    intro c hc
    simp only [beq_iff_eq]
    exact h c hc
  simp [mkCodeEvaluator, hfil]

/-- Witness for the empty-notebook claim: a notebook with a single markdown
cell is rejected by the constructor. -/
theorem emptyNotebookConstructionFails_witness :
    (∀ c ∈ [(⟨"m1", CellType.markdown, CellScope.globalScope, "# heading"⟩ : SrcCell)],
      c.cellType ≠ CellType.code)
    ∧ mkCodeEvaluator [⟨"m1", CellType.markdown, CellScope.globalScope, "# heading"⟩]
        = Except.error "Need some code cells!" := by
  refine ⟨?_, ?_⟩
  · intro c hc
    simp only [List.mem_singleton] at hc
    subst hc
    decide
  · exact emptyNotebookConstructionFails
      [⟨"m1", CellType.markdown, CellScope.globalScope, "# heading"⟩]
      (by intro c hc; simp only [List.mem_singleton] at hc; subst hc; decide)

/-! ## Evaluation supervisor (claims C4, C5, C10)

Model of the parent-process supervisor (shells/evaluation-engine): the
workers table indexed by notebook id, the messages table holding the
outbound queue per notebook id, and the handlers registered by
forkEvalWorker.  Tables are association lists with the key semantics of
JavaScript objects (one binding per key; deletion removes the key). -/

/-- A message appended to the outbound queue of a notebook. -/
inductive QMsg where
  | errorMsg (text : String)
  | completedMsg
  | relayed (name : String) (payload : String)
  deriving DecidableEq, Repr

/-- Supervisor state: notebook ids with a registered worker, and the
outbound message queue per notebook id.  The delayed deletion of a
messages entry one minute after completion is a separate step
(cleanupMessages), not part of any handler modelled here. -/
structure Supervisor where
  workers : List String
  messages : List (String × List QMsg)
  deriving DecidableEq, Repr

/-- Lookup of the outbound queue of a notebook (messages table access). -/
def findQueue : List (String × List QMsg) → String → Option (List QMsg)
  | [], _ => none
  | (k, q) :: rest, id => if k = id then some q else findQueue rest id

/-- Push of one message onto the queue of a notebook: mirrors
`if (messages[notebookId]) messages[notebookId].push(...)`; when the id has
no entry, nothing happens. -/
def pushMsg (id : String) (m : QMsg) (s : Supervisor) : Supervisor :=
  { s with messages :=
      s.messages.map (fun kv => if kv.1 = id then (kv.1, kv.2 ++ [m]) else kv) }

/-- The fixed message synthesized on unexpected termination. -/
def unexpectedTerminationText : String :=
  "Notebook evaluation terminated unexpectedly."

/-- onWorkerCompletion (supervisor, lines 184-191): removes the worker entry
for the notebook; the messages entry is scheduled for deletion after a
one-minute grace period (cleanupMessages below), not deleted here. -/
def onWorkerCompletion (id : String) (s : Supervisor) : Supervisor :=
  { s with workers := s.workers.filter (fun w => w ≠ id) }

/-- The delayed message cleanup fired one minute after onWorkerCompletion. -/
def cleanupMessages (id : String) (s : Supervisor) : Supervisor :=
  { s with messages := s.messages.filter (fun kv => kv.1 ≠ id) }

/-- onUnexpectedWorkerCompletion (supervisor, lines 196-218): complete the
worker, then, if a messages entry exists, append a receive-error event with
the fixed unexpected-termination text followed by a notebook-eval-completed
event. -/
def onUnexpectedWorkerCompletion (id : String) (s : Supervisor) : Supervisor :=
  pushMsg id QMsg.completedMsg
    (pushMsg id (QMsg.errorMsg unexpectedTerminationText)
      (onWorkerCompletion id s))

/-- onNotebookTimeout (supervisor, lines 223-245): same body as
onUnexpectedWorkerCompletion (the source duplicates it). -/
def onNotebookTimeout (id : String) (s : Supervisor) : Supervisor :=
  pushMsg id QMsg.completedMsg
    (pushMsg id (QMsg.errorMsg unexpectedTerminationText)
      (onWorkerCompletion id s))

/-- The exit handler registered in forkEvalWorker (lines 113-128): if the
worker entry is still present (so no completed message was seen and no stop
or timeout removed it), treat the exit as unexpected. -/
def handleWorkerExit (id : String) (s : Supervisor) : Supervisor :=
  if id ∈ s.workers then onUnexpectedWorkerCompletion id s else s

/-- killWorkers (supervisor, lines 169-179): if a worker entry exists,
complete it (removing the entry) and kill the process; the kill signal
itself changes no supervisor state, and the resulting exit event is handled
later by handleWorkerExit. -/
def killWorkers (id : String) (s : Supervisor) : Supervisor :=
  if id ∈ s.workers then onWorkerCompletion id s else s

/-- The stop-evaluation endpoint (lines 362-369): killWorkers on the
requested notebook id. -/
def stopEvaluation (id : String) (s : Supervisor) : Supervisor :=
  killWorkers id s

/-- The status endpoint (lines 271-277): the notebook ids with a live
worker entry. -/
def statusNotebookIds (s : Supervisor) : List String :=
  s.workers

/-- A message received from a worker process: the optional workerId field,
the event kind, and the notebook-event payload (its own notebook id, name
and args). -/
structure WorkerMsg where
  workerId : Option String
  event : String
  evNotebookId : String
  evName : String
  evPayload : String
  deriving DecidableEq, Repr

/-- onNotebookEvent (supervisor, lines 250-260): append the relayed event to
the queue of the notebook id carried by the event, if that queue exists. -/
def onNotebookEvent (evNotebookId evName evPayload : String) (s : Supervisor) :
    Supervisor :=
  pushMsg evNotebookId (QMsg.relayed evName evPayload) s

/-- The message handler registered in forkEvalWorker (lines 130-163):
discard messages without a workerId; discard messages once the worker entry
for the notebook has been removed; relay notebook events; on a completed
message, complete the worker named by the message. -/
def handleWorkerMessage (notebookId : String) (msg : WorkerMsg) (s : Supervisor) :
    Supervisor :=
  match msg.workerId with
  | none => s
  | some wid =>
      if notebookId ∈ s.workers then
        if msg.event = "notebook-event" then
          onNotebookEvent msg.evNotebookId msg.evName msg.evPayload s
        else if msg.event = "completed" then
          onWorkerCompletion wid s
        else s
      else s

/-! ### Supervisor lemmas -/

theorem findQueue_map_push (id : String) (m : QMsg) :
    ∀ ms : List (String × List QMsg),
      findQueue (ms.map (fun kv => if kv.1 = id then (kv.1, kv.2 ++ [m]) else kv)) id
        = (findQueue ms id).map (· ++ [m]) := by
  intro ms
  induction ms with
  | nil => rfl
  | cons kv rest ih =>
      obtain ⟨k, q⟩ := kv
      dsimp only [List.map_cons]
      by_cases hk : k = id
      · rw [if_pos hk]
        simp [findQueue, hk]
      · rw [if_neg hk]
        simp [findQueue, hk, ih]

theorem findQueue_pushMsg_self (id : String) (m : QMsg) (s : Supervisor) :
    findQueue (pushMsg id m s).messages id = (findQueue s.messages id).map (· ++ [m]) :=
  findQueue_map_push id m s.messages

theorem onWorkerCompletion_messages (id : String) (s : Supervisor) :
    (onWorkerCompletion id s).messages = s.messages := rfl

theorem onWorkerCompletion_not_mem (id : String) (s : Supervisor) :
    id ∉ (onWorkerCompletion id s).workers := by
  intro h
  have := (List.mem_filter.mp h).2
  simp at this

theorem pushMsg_workers (id : String) (m : QMsg) (s : Supervisor) :
    (pushMsg id m s).workers = s.workers := rfl

theorem onUnexpectedWorkerCompletion_queue (id : String) (s : Supervisor)
    (q : List QMsg) (hq : findQueue s.messages id = some q) :
    findQueue (onUnexpectedWorkerCompletion id s).messages id =
      some (q ++ [QMsg.errorMsg unexpectedTerminationText, QMsg.completedMsg]) := by
  show findQueue (pushMsg id QMsg.completedMsg
      (pushMsg id (QMsg.errorMsg unexpectedTerminationText)
        (onWorkerCompletion id s))).messages id = _
  rw [findQueue_pushMsg_self, findQueue_pushMsg_self]
  have hq2 : findQueue (onWorkerCompletion id s).messages id = some q := hq
  rw [hq2]
  simp

theorem onUnexpectedWorkerCompletion_not_mem (id : String) (s : Supervisor) :
    id ∉ (onUnexpectedWorkerCompletion id s).workers := by
  show id ∉ (pushMsg _ _ (pushMsg _ _ (onWorkerCompletion id s))).workers
  rw [pushMsg_workers, pushMsg_workers]
  exact onWorkerCompletion_not_mem id s

/-- Claim C4: whenever a worker process exits without having previously sent
a completed message, the exit handler appends to that notebook's outbound
queue an error event carrying the fixed unexpected-termination message
followed immediately by a notebook-eval-completed event, and removes the
session so the notebook no longer appears in the status query.  When the
worker is killed on timeout, the timeout handler has already appended the
same pair and removed the session, and the subsequent exit appends nothing
more. -/
theorem workerExitSynthesizesPair (id : String) (s : Supervisor) (q : List QMsg)
    (hw : id ∈ s.workers) (hq : findQueue s.messages id = some q) :
    (findQueue (handleWorkerExit id s).messages id =
        some (q ++ [QMsg.errorMsg unexpectedTerminationText, QMsg.completedMsg])
      ∧ id ∉ statusNotebookIds (handleWorkerExit id s))
    ∧ (findQueue (handleWorkerExit id (onNotebookTimeout id s)).messages id =
        some (q ++ [QMsg.errorMsg unexpectedTerminationText, QMsg.completedMsg])
      ∧ id ∉ statusNotebookIds (handleWorkerExit id (onNotebookTimeout id s))) := by
  have hexit : handleWorkerExit id s = onUnexpectedWorkerCompletion id s := by
    simp [handleWorkerExit, hw]
  have htmo_not_mem : id ∉ (onNotebookTimeout id s).workers := by
    show id ∉ (pushMsg _ _ (pushMsg _ _ (onWorkerCompletion id s))).workers
    rw [pushMsg_workers, pushMsg_workers]
    exact onWorkerCompletion_not_mem id s
  have hexit2 : handleWorkerExit id (onNotebookTimeout id s) = onNotebookTimeout id s := by
    simp [handleWorkerExit, htmo_not_mem]
  refine ⟨⟨?_, ?_⟩, ?_, ?_⟩
  · rw [hexit]
    exact onUnexpectedWorkerCompletion_queue id s q hq
  · rw [hexit]
    exact onUnexpectedWorkerCompletion_not_mem id s
  · rw [hexit2]
    exact onUnexpectedWorkerCompletion_queue id s q hq
  · rw [hexit2]
    exact htmo_not_mem

/-- Witness for the unexpected-termination claim: a supervisor with one live
worker and an empty queue for notebook nb1. -/
theorem workerExitSynthesizesPair_witness :
    ("nb1" ∈ (⟨["nb1"], [("nb1", [])]⟩ : Supervisor).workers
      ∧ findQueue (⟨["nb1"], [("nb1", [])]⟩ : Supervisor).messages "nb1" = some [])
    ∧ findQueue (handleWorkerExit "nb1" (⟨["nb1"], [("nb1", [])]⟩ : Supervisor)).messages
        "nb1" = some [QMsg.errorMsg unexpectedTerminationText, QMsg.completedMsg] := by
  refine ⟨⟨by decide, by decide⟩, ?_⟩
  have h := (workerExitSynthesizesPair "nb1" ⟨["nb1"], [("nb1", [])]⟩ []
    (by decide) (by decide)).1.1
  simpa using h

/-! ### Claim C5: stop -/

/-- Claim C5 counterexample: the claim states that when a session exists,
stop synthesizes one error event plus one notebook-eval-completed event into
the outbound queue.  In the code, killWorkers removes the worker entry
before killing the process, so the exit handler sees no entry and
synthesizes nothing: the queue is unchanged by stop. -/
theorem stopSynthesizesPair_counterexample :
    ¬ (findQueue (stopEvaluation "nb1"
          (⟨["nb1"], [("nb1", [])]⟩ : Supervisor)).messages "nb1" =
        some [QMsg.errorMsg unexpectedTerminationText, QMsg.completedMsg])
    ∧ findQueue (stopEvaluation "nb1"
          (⟨["nb1"], [("nb1", [])]⟩ : Supervisor)).messages "nb1" = some []
    ∧ findQueue (handleWorkerExit "nb1" (stopEvaluation "nb1"
          (⟨["nb1"], [("nb1", [])]⟩ : Supervisor))).messages "nb1" = some [] := by
  refine ⟨by decide, by decide, by decide⟩

/-- Claim C5 (amended): stop(notebookId) removes the session (the worker is
killed and the notebook no longer appears in the status query) but appends
no events to the outbound queue; the subsequent exit of the killed worker
also appends nothing.  stop is idempotent, and calling it for a notebookId
with no session is a no-op. -/
theorem stopIdempotentNoEvents (id : String) (s : Supervisor) :
    stopEvaluation id (stopEvaluation id s) = stopEvaluation id s
    ∧ (id ∉ s.workers → stopEvaluation id s = s)
    ∧ (stopEvaluation id s).messages = s.messages
    ∧ id ∉ statusNotebookIds (stopEvaluation id s)
    ∧ handleWorkerExit id (stopEvaluation id s) = stopEvaluation id s := by
  by_cases hw : id ∈ s.workers
  · have h1 : stopEvaluation id s = onWorkerCompletion id s := by
      simp [stopEvaluation, killWorkers, hw]
    have hnm : id ∉ (onWorkerCompletion id s).workers := onWorkerCompletion_not_mem id s
    refine ⟨?_, ?_, ?_, ?_, ?_⟩
    · rw [h1]
      simp [stopEvaluation, killWorkers, hnm]
    · intro hc; exact absurd hw hc
    · rw [h1]; rfl
    · rw [h1]; exact hnm
    · rw [h1]
      simp [handleWorkerExit, hnm]
  · have h1 : stopEvaluation id s = s := by
      simp [stopEvaluation, killWorkers, hw]
    refine ⟨?_, fun _ => h1, ?_, ?_, ?_⟩
    · rw [h1, h1]
    · rw [h1]
    · rw [h1]; exact hw
    · rw [h1]
      simp [handleWorkerExit, hw]

/-- Witness for the amended stop claim: stopping nb1 twice equals stopping
it once, and a stop for an absent notebook id is a no-op. -/
theorem stopIdempotentNoEvents_witness :
    stopEvaluation "nb1" (stopEvaluation "nb1"
        (⟨["nb1"], [("nb1", [])]⟩ : Supervisor))
      = stopEvaluation "nb1" (⟨["nb1"], [("nb1", [])]⟩ : Supervisor)
    ∧ ("absent" ∉ (⟨["nb1"], [("nb1", [])]⟩ : Supervisor).workers
      ∧ stopEvaluation "absent" (⟨["nb1"], [("nb1", [])]⟩ : Supervisor)
          = (⟨["nb1"], [("nb1", [])]⟩ : Supervisor)) := by
  refine ⟨(stopIdempotentNoEvents "nb1" ⟨["nb1"], [("nb1", [])]⟩).1, by decide, ?_⟩
  exact (stopIdempotentNoEvents "absent" ⟨["nb1"], [("nb1", [])]⟩).2.1 (by decide)

/-! ### Claim C10: discarded worker messages -/

/-- Claim C10: once the supervisor has removed a notebook's worker entry,
every subsequently received message from that worker is discarded and never
appended to the notebook's outbound queue; likewise any worker message
lacking a workerId field is discarded. -/
theorem removedWorkerMessagesDiscarded (notebookId : String) (msg : WorkerMsg)
    (s : Supervisor) :
    (notebookId ∉ s.workers → handleWorkerMessage notebookId msg s = s)
    ∧ (msg.workerId = none → handleWorkerMessage notebookId msg s = s) := by
  constructor
  · intro hw
    match hmsg : msg.workerId with
    | none => simp [handleWorkerMessage, hmsg]
    | some wid => simp [handleWorkerMessage, hmsg, hw]
  · intro hnone
    simp [handleWorkerMessage, hnone]

/-- Witness for the discarded-messages claim: a completed-style message for
a notebook whose worker entry has been removed, and a message lacking a
workerId. -/
theorem removedWorkerMessagesDiscarded_witness :
    handleWorkerMessage "nb1"
        ⟨some "nb1", "notebook-event", "nb1", "receive-display", "42"⟩
        (⟨[], [("nb1", [])]⟩ : Supervisor)
      = (⟨[], [("nb1", [])]⟩ : Supervisor)
    ∧ handleWorkerMessage "nb2"
        ⟨none, "notebook-event", "nb2", "receive-display", "42"⟩
        (⟨["nb2"], [("nb2", [])]⟩ : Supervisor)
      = (⟨["nb2"], [("nb2", [])]⟩ : Supervisor) := by
  constructor
  · exact (removedWorkerMessagesDiscarded "nb1"
      ⟨some "nb1", "notebook-event", "nb1", "receive-display", "42"⟩
      ⟨[], [("nb1", [])]⟩).1 (by decide)
  · exact (removedWorkerMessagesDiscarded "nb2"
      ⟨none, "notebook-event", "nb2", "receive-display", "42"⟩
      ⟨["nb2"], [("nb2", [])]⟩).2 rfl

/-! ## Code generation (claim C7)

String-level embedding of JavaScriptCodeGenerator.internalGenCode in eval
mode (forExport = false); the export-mode branches and the source-map
bookkeeping (generatedCodeOffset, sourceMapGenerator) are not modelled, as
they do not contribute to the generated code text. -/

def crlf : String := "\r\n"

def EXPORT_HEADER : String := ""

def EVAL_PRE_CODE : String := "const wrapperFn = (async function () \x7b\r\n"

def EVAL_POST_CODE : String := "\r\n\x7d)"

def LOCAL_PRE_CODE : String := "await (async function () \x7b\r\n"

def LOCAL_POST_CODE : String := "\x7d)();"

def isCodeCell (c : SrcCell) : Bool := c.cellType == CellType.code

/-- Accumulator pass of splitLines: splits a character list at every
newline, keeping empty pieces, like the JavaScript split("\n"). -/
def splitCharsAux : List Char → List Char → List (List Char)
  | [], acc => [acc.reverse]
  | c :: cs, acc =>
      if c = '\n' then acc.reverse :: splitCharsAux cs []
      else splitCharsAux cs (c :: acc)

/-- The JavaScript text.split("\n") used by internalGenCode. -/
def splitLines (s : String) : List String :=
  (splitCharsAux s.data []).map (fun cs => String.mk cs)

/-- Whitespace as removed by the JavaScript trimRight (space, tab, carriage
return, newline, form feed, vertical tab). -/
def isWhitespaceChar (c : Char) : Bool :=
  c = ' ' || c = '\t' || c = '\r' || c = '\n' || c = '\x0c' || c = '\x0b'

/-- The JavaScript line.trimRight() used by internalGenCode: removes
trailing whitespace. -/
def trimRightStr (s : String) : String :=
  String.mk (s.data.reverse.dropWhile isWhitespaceChar).reverse

/-- Hoisting contribution of one cell (internalGenCode lines 901-912): the
lines of the cell text matching the import-statement grammar, trimmed of
trailing whitespace, joined with line terminators; empty when no line
matches.

Modelled from the spec: isModuleImportStatement (module ./npm, absent from
the sources) is an abstract predicate on lines, passed as the isImport
parameter. -/
def hoistCellImports (isImport : String → Bool) (c : SrcCell) : String :=
  let moduleImportLines :=
    ((splitLines c.text).filter isImport).map (fun l => trimRightStr l)
  if moduleImportLines.length = 0 then ""
  else String.intercalate crlf moduleImportLines ++ crlf

/-- Body lines of a cell after the per-line processing of internalGenCode
(lines 938-951): each line is trimmed of trailing whitespace, and a line
matching the import-statement grammar is replaced by an empty line. -/
def blankImportLines (isImport : String → Bool) (text : String) : List String :=
  ((splitLines text).map (fun l => trimRightStr l)).map
    (fun line => if isImport line then "" else line)

/-- Emitted body of a cell (internalGenCode lines 938-961): the processed
lines joined, wrapped in an immediately invoked scope for local cells, with
a trailing line terminator. -/
def cellBodyCode (isImport : String → Bool) (c : SrcCell) : String :=
  let cellCode := String.intercalate crlf (blankImportLines isImport c.text)
  let cellCode :=
    if c.scope = CellScope.localScope then
      LOCAL_PRE_CODE ++ cellCode ++ crlf ++ LOCAL_POST_CODE
    else cellCode
  cellCode ++ crlf

/-- The __cell wrapper opening emitted before a cell body (line 930). -/
def preCellCode (i : Nat) (c : SrcCell) : String :=
  "__cell(" ++ toString i ++ ", \"" ++ c.id ++ "\", async () => \x7b" ++ crlf

/-- The __capture_locals call emitted after a non-local cell body
(line 971): the generated getLocals returns an empty object. -/
def captureLocalsCode (i : Nat) (c : SrcCell) : String :=
  "__capture_locals(" ++ toString i ++ ", \"" ++ c.id ++ "\", () => (\x7b\x7d));" ++ crlf

/-- The full contribution of one cell in eval mode (loop body, lines
928-979). -/
def cellChunk (isImport : String → Bool) (i : Nat) (c : SrcCell) : String :=
  preCellCode i c ++ cellBodyCode isImport c ++
    (if c.scope = CellScope.localScope then "" else captureLocalsCode i c)

/-- The per-cell generation loop (lines 923-979), carrying the positional
cell index. -/
def cellsCode (isImport : String → Bool) : Nat → List SrcCell → String
  | _, [] => ""
  | i, c :: rest => cellChunk isImport i c ++ cellsCode isImport (i + 1) rest

/-- The closing braces emitted once per cell after __end (lines 985-989). -/
def closingBraces : Nat → String
  | 0 => ""
  | n + 1 => ("\x7d);" ++ crlf) ++ closingBraces n

/-- internalGenCode in eval mode (lines 883-1016): header, hoisted imports
of every code cell in cell order, eval preamble, the per-cell chunks, the
__end call, the closing braces, and the eval postamble. -/
def internalGenCode (isImport : String → Bool) (cellsInput : List SrcCell) : String :=
  let cells := cellsInput.filter isCodeCell
  EXPORT_HEADER
    ++ String.join (cells.map (hoistCellImports isImport))
    ++ EVAL_PRE_CODE
    ++ cellsCode isImport 0 cells
    ++ ("__end();" ++ crlf)
    ++ closingBraces cells.length
    ++ EVAL_POST_CODE

/-- The import lines of one cell in source order, trimmed of trailing
whitespace. -/
def importLinesOf (isImport : String → Bool) (c : SrcCell) : List String :=
  ((splitLines c.text).filter isImport).map (fun l => trimRightStr l)

/-- All import lines across the given cells, in cell order, duplicates
preserved. -/
def allImportLines (isImport : String → Bool) (cells : List SrcCell) : List String :=
  (cells.map (importLinesOf isImport)).flatten

/-- One terminated line per list entry. -/
def mkLines (ls : List String) : String :=
  String.join (ls.map (fun l => l ++ crlf))

/-! ### String lemmas -/

theorem foldlAppendJoin : ∀ (l : List String) (acc : String),
    l.foldl (fun r s => r ++ s) acc = acc ++ String.join l := by
  intro l
  induction l with
  | nil => intro acc; simp [String.join]
  | cons a l ih =>
      intro acc
      show (a :: l).foldl (fun r s => r ++ s) acc = acc ++ String.join (a :: l)
      rw [List.foldl_cons, ih (acc ++ a)]
      have hj : String.join (a :: l) = a ++ String.join l := by
        show (a :: l).foldl (fun r s => r ++ s) "" = a ++ String.join l
        rw [List.foldl_cons, ih ("" ++ a), String.empty_append]
      rw [hj, String.append_assoc]

theorem joinCons (a : String) (l : List String) :
    String.join (a :: l) = a ++ String.join l := by
  show (a :: l).foldl (fun r s => r ++ s) "" = a ++ String.join l
  rw [List.foldl_cons, foldlAppendJoin l ("" ++ a), String.empty_append]

theorem joinAppend (l₁ l₂ : List String) :
    String.join (l₁ ++ l₂) = String.join l₁ ++ String.join l₂ := by
  induction l₁ with
  | nil => simp [String.join]
  | cons a l ih =>
      rw [List.cons_append, joinCons, joinCons, ih, String.append_assoc]

theorem mkLines_append (a b : List String) :
    mkLines (a ++ b) = mkLines a ++ mkLines b := by
  rw [mkLines, List.map_append, joinAppend]
  rfl

theorem intercalateGo (as : List String) : ∀ acc : String,
    String.intercalate.go acc crlf as ++ crlf = acc ++ crlf ++ mkLines as := by
  induction as with
  | nil =>
      intro acc
      show acc ++ crlf = acc ++ crlf ++ mkLines []
      rw [show mkLines [] = "" from rfl, String.append_empty]
  | cons a as ih =>
      intro acc
      show String.intercalate.go (acc ++ crlf ++ a) crlf as ++ crlf
          = acc ++ crlf ++ mkLines (a :: as)
      rw [ih (acc ++ crlf ++ a)]
      rw [show mkLines (a :: as) = (a ++ crlf) ++ mkLines as from by
        rw [mkLines, List.map_cons, joinCons]; rfl]
      simp [String.append_assoc]

theorem intercalate_mkLines (ls : List String) (h : ls ≠ []) :
    String.intercalate crlf ls ++ crlf = mkLines ls := by
  cases ls with
  | nil => exact absurd rfl h
  | cons a as =>
      show String.intercalate.go a crlf as ++ crlf = mkLines (a :: as)
      rw [intercalateGo as a]
      rw [show mkLines (a :: as) = (a ++ crlf) ++ mkLines as from by
        rw [mkLines, List.map_cons, joinCons]; rfl]

theorem hoistCellImports_mkLines (isImport : String → Bool) (c : SrcCell) :
    hoistCellImports isImport c = mkLines (importLinesOf isImport c) := by
  show (if (importLinesOf isImport c).length = 0 then ""
      else String.intercalate crlf (importLinesOf isImport c) ++ crlf)
    = mkLines (importLinesOf isImport c)
  by_cases h : (importLinesOf isImport c).length = 0
  · rw [if_pos h, List.length_eq_zero.mp h]
    rfl
  · rw [if_neg h]
    exact intercalate_mkLines _ (fun hnil => h (by rw [hnil]; rfl))

theorem joinMap_hoist (isImport : String → Bool) (cells : List SrcCell) :
    String.join (cells.map (hoistCellImports isImport))
      = mkLines (allImportLines isImport cells) := by
  induction cells with
  | nil => rfl
  | cons c cs ih =>
      rw [List.map_cons, joinCons, hoistCellImports_mkLines, ih]
      rw [show allImportLines isImport (c :: cs)
          = importLinesOf isImport c ++ allImportLines isImport cs from by
        rw [allImportLines, List.map_cons, List.flatten_cons]; rfl]
      rw [mkLines_append]

/-- Claim C7: in code generation, every line of every code cell that matches
the import-statement grammar is lifted to the top of the generated unit (one
terminated line per matching source line, across code cells in cell order,
duplicates preserved rather than deduplicated), and is removed from that
cell's emitted body, where it leaves an empty line in its place. -/
theorem importHoisting (isImport : String → Bool) (cellsInput : List SrcCell)
    (hinv : ∀ c ∈ cellsInput, ∀ l ∈ splitLines c.text,
      isImport (trimRightStr l) = isImport l) :
    internalGenCode isImport cellsInput
      = mkLines (allImportLines isImport (cellsInput.filter isCodeCell))
          ++ (EVAL_PRE_CODE
          ++ (cellsCode isImport 0 (cellsInput.filter isCodeCell)
          ++ (("__end();" ++ crlf)
          ++ (closingBraces (cellsInput.filter isCodeCell).length
          ++ EVAL_POST_CODE))))
    ∧ ∀ c ∈ cellsInput.filter isCodeCell,
        blankImportLines isImport c.text
          = (splitLines c.text).map
              (fun l => if isImport l then "" else trimRightStr l) := by
  constructor
  · show EXPORT_HEADER
        ++ String.join ((cellsInput.filter isCodeCell).map (hoistCellImports isImport))
        ++ EVAL_PRE_CODE
        ++ cellsCode isImport 0 (cellsInput.filter isCodeCell)
        ++ ("__end();" ++ crlf)
        ++ closingBraces (cellsInput.filter isCodeCell).length
        ++ EVAL_POST_CODE = _
    rw [joinMap_hoist, show EXPORT_HEADER = "" from rfl, String.empty_append]
    rw [String.append_assoc, String.append_assoc, String.append_assoc,
      String.append_assoc]
  · intro c hc
    have hc2 := List.mem_filter.mp hc
    rw [blankImportLines, List.map_map]
    refine List.map_congr_left ?_
    intro l hl
    show (if isImport (trimRightStr l) then "" else trimRightStr l)
        = (if isImport l then "" else trimRightStr l)
    rw [hinv c hc2.1 l hl]

/-- Witness for the import-hoisting claim: two code cells sharing the same
hoistable line; the hoisted block contains the line twice (no deduplication)
and both cell bodies have the line blanked. -/
theorem importHoisting_witness :
    (∀ c ∈ [(⟨"a", CellType.code, CellScope.globalScope,
              "import a\nlet x = 1;"⟩ : SrcCell),
            ⟨"b", CellType.code, CellScope.globalScope,
              "import a\ndisplay(x);"⟩],
      ∀ l ∈ splitLines c.text,
        (fun t => t == "import a") (trimRightStr l)
          = (fun t => t == "import a") l)
    ∧ allImportLines (fun t => t == "import a")
        ([(⟨"a", CellType.code, CellScope.globalScope,
            "import a\nlet x = 1;"⟩ : SrcCell),
          ⟨"b", CellType.code, CellScope.globalScope,
            "import a\ndisplay(x);"⟩].filter isCodeCell)
        = ["import a", "import a"]
    ∧ (∀ c ∈ [(⟨"a", CellType.code, CellScope.globalScope,
                "import a\nlet x = 1;"⟩ : SrcCell),
              ⟨"b", CellType.code, CellScope.globalScope,
                "import a\ndisplay(x);"⟩].filter isCodeCell,
        blankImportLines (fun t => t == "import a") c.text
          = (splitLines c.text).map
              (fun l => if (fun t => t == "import a") l then "" else trimRightStr l)) := by
  refine ⟨by decide, by decide, ?_⟩
  exact (importHoisting (fun t => t == "import a")
    [⟨"a", CellType.code, CellScope.globalScope, "import a\nlet x = 1;"⟩,
     ⟨"b", CellType.code, CellScope.globalScope, "import a\ndisplay(x);"⟩]
    (by decide)).2

end DFN
